import Mathlib
/-!
Verification of the ray-tracing engine in `src/raytracer/src/main.rs`
(`hit_world`, `ray_color`, the `render` pixel pipeline) against its
natural-language specification.

Modelling conventions:
* The `f64` and `f32` machine numbers of the source are idealised as exact
  rationals (`ℚ`); `f64::sqrt` is modelled by `Rat.sqrt`, which agrees with
  the mathematical square root on every rational that is a square of a
  rational (all square roots taken in the concrete evaluations below stay
  inside that domain).
* Code of the repository's `raytracer` library crate (Vec3, Ray, Camera,
  Sphere::hit, the materials) is not under `src/`; those definitions are
  modelled from the specification and are marked as such.
* The material `scatter` functions draw random numbers, so `ray_color` is
  parameterised over the scatter oracle (the scatter function with its
  random draws resolved); theorems about `ray_color` hold for every oracle.
-/
/-- Modelled from the spec: Vec3, three rational components (§3). -/
structure Vec3 where
  x : ℚ
  y : ℚ
  z : ℚ
/-- Modelled from the spec: componentwise addition. -/
def Vec3.add (a b : Vec3) : Vec3 := ⟨a.x + b.x, a.y + b.y, a.z + b.z⟩
/-- Modelled from the spec: componentwise subtraction. -/
def Vec3.sub (a b : Vec3) : Vec3 := ⟨a.x - b.x, a.y - b.y, a.z - b.z⟩
/-- Modelled from the spec: scalar multiplication. -/
def Vec3.smul (a : Vec3) (k : ℚ) : Vec3 := ⟨a.x * k, a.y * k, a.z * k⟩
/-- Modelled from the spec: scalar division. -/
def Vec3.div (a : Vec3) (k : ℚ) : Vec3 := ⟨a.x / k, a.y / k, a.z / k⟩
/-- Modelled from the spec: negation. -/
def Vec3.neg (a : Vec3) : Vec3 := ⟨-a.x, -a.y, -a.z⟩
/-- Modelled from the spec: dot product. -/
def Vec3.dot (a b : Vec3) : ℚ := a.x * b.x + a.y * b.y + a.z * b.z
/-- Modelled from the spec: squared length. -/
def Vec3.length_squared (v : Vec3) : ℚ := v.dot v
/-- Model of `f64::sqrt`: exact on rationals that are squares of rationals
(`Rat.sqrt_eq`); every concrete square root evaluated in this file is of
that form. -/
def fsqrt (q : ℚ) : ℚ := Rat.sqrt q
/-- Modelled from the spec: vector length. -/
def Vec3.length (v : Vec3) : ℚ := fsqrt v.length_squared
/-- Modelled from the spec: unit-vector normalization. -/
def Vec3.unit_vector (v : Vec3) : Vec3 := v.div v.length
/-- Modelled from the spec: a ray has an origin and an (unnormalised)
direction (§3). -/
structure Ray where
  origin : Vec3
  direction : Vec3
/-- Modelled from the spec: the parametric point `origin + t * direction`. -/
def Ray.at (r : Ray) (t : ℚ) : Vec3 := r.origin.add (r.direction.smul t)
/-- Colors as used by the engine: linear RGB triples (source uses
`palette::Srgb<f32>`). -/
structure Srgb where
  red : ℚ
  green : ℚ
  blue : ℚ
/-- Modelled from the spec: the tagged material variants (§3). The scatter
behaviour itself is randomized library code and is abstracted by
`ScatterFn` below. -/
inductive Material where
  | Lambertian (albedo : Srgb)
  | Metal (albedo : Srgb) (fuzz : ℚ)
  | Glass (refractive_index : ℚ)
/-- Modelled from the spec: the hit record (§3). -/
structure HitRecord where
  p : Vec3
  normal : Vec3
  t : ℚ
  material : Material
  front_face : Bool
/-- Modelled from the spec: a sphere (§3). -/
structure Sphere where
  center : Vec3
  radius : ℚ
  material : Material
/-- Quadratic coefficient `a = D·D` of §4.2. -/
def Sphere.a_coeff (_s : Sphere) (r : Ray) : ℚ := r.direction.dot r.direction
/-- Quadratic coefficient `half_b = oc·D` of §4.2. -/
def Sphere.half_b (s : Sphere) (r : Ray) : ℚ :=
  (r.origin.sub s.center).dot r.direction
/-- Quadratic coefficient `c = oc·oc − r²` of §4.2. -/
def Sphere.c_coeff (s : Sphere) (r : Ray) : ℚ :=
  (r.origin.sub s.center).dot (r.origin.sub s.center) - s.radius * s.radius
/-- Discriminant `half_b² − a·c` of §4.2. -/
def Sphere.discrim (s : Sphere) (r : Ray) : ℚ :=
  s.half_b r * s.half_b r - s.a_coeff r * s.c_coeff r
/-- First candidate root `(-half_b - √d)/a` of §4.2. -/
def Sphere.root1 (s : Sphere) (r : Ray) : ℚ :=
  (-s.half_b r - fsqrt (s.discrim r)) / s.a_coeff r
/-- Second candidate root `(-half_b + √d)/a` of §4.2. -/
def Sphere.root2 (s : Sphere) (r : Ray) : ℚ :=
  (-s.half_b r + fsqrt (s.discrim r)) / s.a_coeff r
/-- Outward normal `(p − C)/r` of §4.2 at parameter `t`. -/
def Sphere.outward (s : Sphere) (r : Ray) (t : ℚ) : Vec3 :=
  ((r.at t).sub s.center).div s.radius
/-- Hit record built at parameter `t` per §4.2: `p = ray.at t`, outward
normal `(p − C)/r`, flipped when not front-facing. -/
def Sphere.mkRecord (s : Sphere) (r : Ray) (t : ℚ) : HitRecord :=
  if r.direction.dot (s.outward r t) < 0 then
    ⟨r.at t, s.outward r t, t, s.material, true⟩
  else ⟨r.at t, (s.outward r t).neg, t, s.material, false⟩
/-- Modelled from the spec (§4.2): ray/sphere intersection. No hit when the
discriminant is negative; otherwise the roots are tried in order and the
first one strictly inside `(t_min, t_max)` is returned. This is library
code of the repository that is not under `src/`. -/
def Sphere.hit (s : Sphere) (r : Ray) (t_min t_max : ℚ) : Option HitRecord :=
  if s.discrim r < 0 then none
  else if t_min < s.root1 r ∧ s.root1 r < t_max then some (s.mkRecord r (s.root1 r))
  else if t_min < s.root2 r ∧ s.root2 r < t_max then some (s.mkRecord r (s.root2 r))
  else none
/-- The intersection parameters of a ray with a sphere in the model of
§4.2: the two quadratic roots when the discriminant is nonnegative. -/
def Sphere.roots (s : Sphere) (r : Ray) : List ℚ :=
  if s.discrim r < 0 then [] else [s.root1 r, s.root2 r]
/-- Loop body of `hit_world` (main.rs lines 35–40): a hit below the current
`closest_so_far` updates both the bound and the remembered record. -/
def hit_step (r : Ray) (t_min : ℚ) (acc : ℚ × Option HitRecord) (sphere : Sphere) :
    ℚ × Option HitRecord :=
  match Sphere.hit sphere r t_min acc.1 with
  | some hit => (hit.t, some hit)
  | none => acc
/-- Translated from main.rs lines 32–42: fold over the sphere list with
state `(closest_so_far, hit_record)`, initially `(t_max, none)`. -/
def hit_world (world : List Sphere) (r : Ray) (t_min t_max : ℚ) : Option HitRecord :=
  (world.foldl (hit_step r t_min) (t_max, none)).2
/-- Exact value of `std::f64::MAX` (main.rs line 48): `(2^53 − 1)·2^971`. -/
def f64_MAX : ℚ := (2 ^ 53 - 1) * 2 ^ 971
/-- Sky gradient of the miss branch, translated from main.rs lines 66–73;
it is exactly the lerp formula of spec §4.5 item 4 with
`t = 0.5 * (unit(direction).y + 1)`. -/
def sky_color (r : Ray) : Srgb :=
  ⟨(1 - (1/2) * (r.direction.unit_vector.y + 1)) * 1
      + (1/2) * (r.direction.unit_vector.y + 1) * (1/2),
    (1 - (1/2) * (r.direction.unit_vector.y + 1)) * 1
      + (1/2) * (r.direction.unit_vector.y + 1) * (7/10),
    (1 - (1/2) * (r.direction.unit_vector.y + 1)) * 1
      + (1/2) * (r.direction.unit_vector.y + 1) * 1⟩
/-- A scatter oracle: the material `scatter` of the library crate with its
random draws resolved. The source calls it as
`hit_record.material.scatter(ray, &hit_record)`. -/
abbrev ScatterFn : Type := Material → Ray → HitRecord → Option (Ray × Srgb)
/-- Recursion core of `ray_color`, translated from main.rs lines 44–75.
The `i32` depth counter is realised as structural recursion on
`depth.toNat` (see `ray_color`): fuel `0` is the `depth ≤ 0` early return,
and fuel `n+1` is the positive-depth body, recursing with fuel `n` exactly
as the source recurses with `depth - 1`. -/
def ray_color_fuel (sc : ScatterFn) (w : List Sphere) : ℕ → Ray → Srgb
  | 0, _ => ⟨0, 0, 0⟩
  | n + 1, r =>
    match hit_world w r (1/1000) f64_MAX with
    | some hit_record =>
      match sc hit_record.material r hit_record with
      | some (scattered_ray, albedo) =>
        ⟨albedo.red * (ray_color_fuel sc w n scattered_ray).red,
          albedo.green * (ray_color_fuel sc w n scattered_ray).green,
          albedo.blue * (ray_color_fuel sc w n scattered_ray).blue⟩
      | none => ⟨0, 0, 0⟩
    | none => sky_color r
/-- Translated from main.rs lines 44–75: `ray_color(ray, world, depth)`,
parameterised over the scatter oracle `sc`. -/
def ray_color (sc : ScatterFn) (r : Ray) (w : List Sphere) (depth : ℤ) : Srgb :=
  ray_color_fuel sc w depth.toNat r
/-- One positive-depth step of `ray_color`, written out explicitly: the
closest-hit query with `t_min = 1/1000` and `t_max = f64_MAX`, then the
scatter dispatch. -/
def rayColorStep (sc : ScatterFn) (r : Ray) (w : List Sphere) (depth : ℤ) : Srgb :=
  match hit_world w r (1/1000) f64_MAX with
  | some hit_record =>
    match sc hit_record.material r hit_record with
    | some (scattered_ray, albedo) =>
      ⟨albedo.red * (ray_color sc scattered_ray w (depth - 1)).red,
        albedo.green * (ray_color sc scattered_ray w (depth - 1)).green,
        albedo.blue * (ray_color sc scattered_ray w (depth - 1)).blue⟩
    | none => ⟨0, 0, 0⟩
  | none => sky_color r
/-- Strict comparison against an optional upper bound; `none` stands for
the spec's `+∞` (everything is below it). -/
def ltB (q : ℚ) : Option ℚ → Prop
  | none => True
  | some m => q < m
instance ltB.instDec (q : ℚ) : (b : Option ℚ) → Decidable (ltB q b)
  | none => isTrue trivial
  | some m => inferInstanceAs (Decidable (q < m))
/-- Modelled from the spec: sphere intersection as in §4.2 but with an
optional (possibly infinite) upper bound, so that the spec's
`t_max = +∞` of §4.5 step 2 can be expressed. -/
def Sphere.hitB (s : Sphere) (r : Ray) (t_min : ℚ) (t_max : Option ℚ) :
    Option HitRecord :=
  if s.discrim r < 0 then none
  else if t_min < s.root1 r ∧ ltB (s.root1 r) t_max then some (s.mkRecord r (s.root1 r))
  else if t_min < s.root2 r ∧ ltB (s.root2 r) t_max then some (s.mkRecord r (s.root2 r))
  else none
/-- Loop body of the optional-bound closest-hit fold. -/
def hit_stepB (r : Ray) (t_min : ℚ) (acc : Option ℚ × Option HitRecord)
    (sphere : Sphere) : Option ℚ × Option HitRecord :=
  match Sphere.hitB sphere r t_min acc.1 with
  | some hit => (some hit.t, some hit)
  | none => acc
/-- Modelled from the spec (§4.3): the closest-hit fold with
`closest_so_far` starting at an optional bound; started at `none` it is
the query with `t_max = +∞`. -/
def hit_worldB (world : List Sphere) (r : Ray) (t_min : ℚ) (t_max : Option ℚ) :
    Option HitRecord :=
  (world.foldl (hit_stepB r t_min) (t_max, none)).2
/-- Modelled from the spec (§4.5): recursion core of `ray_color` as the
spec words it, with the closest-hit query taken at `t_max = +∞`
(`hit_worldB … none`); everything else is as in `ray_color_fuel`. -/
def ray_colorInf_fuel (sc : ScatterFn) (w : List Sphere) : ℕ → Ray → Srgb
  | 0, _ => ⟨0, 0, 0⟩
  | n + 1, r =>
    match hit_worldB w r (1/1000) none with
    | some hit_record =>
      match sc hit_record.material r hit_record with
      | some (scattered_ray, albedo) =>
        ⟨albedo.red * (ray_colorInf_fuel sc w n scattered_ray).red,
          albedo.green * (ray_colorInf_fuel sc w n scattered_ray).green,
          albedo.blue * (ray_colorInf_fuel sc w n scattered_ray).blue⟩
      | none => ⟨0, 0, 0⟩
    | none => sky_color r
/-- Modelled from the spec (§4.5): `ray_color` as the spec words it, with
`t_max = +∞` in step 2. -/
def ray_colorInf (sc : ScatterFn) (r : Ray) (w : List Sphere) (depth : ℤ) : Srgb :=
  ray_colorInf_fuel sc w depth.toNat r

/-- Modelled from the spec (§4.1): the camera's derived fields. -/
structure Camera where
  origin : Vec3
  horizontal : Vec3
  vertical : Vec3
  lower_left_corner : Vec3

/-- Modelled from the spec (§4.1): constructor with parameters origin,
viewport height, viewport width, focal length; derives `horizontal`,
`vertical` and `lower_left_corner`. Library code not under `src/`. -/
def Camera.new (origin : Vec3) (viewport_height viewport_width focal_length : ℚ) :
    Camera :=
  ⟨origin, ⟨viewport_width, 0, 0⟩, ⟨0, viewport_height, 0⟩,
    ((origin.sub (Vec3.div ⟨viewport_width, 0, 0⟩ 2)).sub
        (Vec3.div ⟨0, viewport_height, 0⟩ 2)).sub ⟨0, 0, focal_length⟩⟩

/-- Modelled from the spec (§4.1): `get_ray(u, v)`; the direction is not
normalised. -/
def Camera.get_ray (c : Camera) (u v : ℚ) : Ray :=
  ⟨c.origin,
    ((c.lower_left_corner.add (c.horizontal.smul u)).add (c.vertical.smul v)).sub
      c.origin⟩

/-- The viewport-width expression of main.rs line 94,
`(800 / 600) as f64 * 2.5`: the division is Rust integer division, cast to
float only afterwards. -/
def viewport_width_expr : ℚ := ((800 / 600 : ℤ) : ℚ) * (5 / 2)

/-- Camera construction of main.rs lines 91–96; the `bounds` argument of
`render` does not occur in it. -/
def render_camera (_bounds : ℕ × ℕ) : Camera :=
  Camera.new ⟨0, 0, 0⟩ 2 viewport_width_expr 1

/-- main.rs line 89. -/
def samples_per_pixel : ℕ := 6

/-- Sub-pixel coordinate of main.rs line 139:
`u = (x + random) / (width − 1)`. -/
def u_sample (width x : ℕ) (r : ℚ) : ℚ := ((x : ℚ) + r) / ((width : ℚ) - 1)

/-- Sub-pixel coordinate of main.rs line 140:
`v = (height − (y + random)) / (height − 1)`. -/
def v_sample (height y : ℕ) (r : ℚ) : ℚ :=
  ((height : ℚ) - ((y : ℚ) + r)) / ((height : ℚ) - 1)

/-- Per-channel value of main.rs lines 147–152: the sample sum is scaled by
`1 / samples_per_pixel` and gamma-2 corrected by a square root. -/
def channel_value (sum : ℚ) : ℚ := fsqrt ((1 / (samples_per_pixel : ℚ)) * sum)

/-- Models the external palette crate's `into_format::<u8>` component
conversion invoked at main.rs line 154: the float channel is saturated to
[0, 1] and `255 * x` is rounded to the nearest integer. -/
def toByte (v : ℚ) : ℤ := round (255 * min 1 (max 0 v))

/-- Per-pixel post-processing and buffer write of main.rs lines 147–157:
gamma-corrected channels are converted to bytes and written at offsets
`i*3`, `i*3+1`, `i*3+2` for `i = y*width + x`, in R,G,B order. -/
def writePixel (pixels : List ℤ) (w x y : ℕ) (sums : ℚ × ℚ × ℚ) : List ℤ :=
  ((pixels.set ((y * w + x) * 3) (toByte (channel_value sums.1))).set
      ((y * w + x) * 3 + 1) (toByte (channel_value sums.2.1))).set
    ((y * w + x) * 3 + 2) (toByte (channel_value sums.2.2))

/-- Byte conversion exactly as claim C6 words it: clamp the channel to
[0, 1) (the spec offers the clamp [0, 0.999]), multiply by 256, truncate. -/
def toByteClaim (v : ℚ) : ℤ := ⌊256 * min (999 / 1000) (max 0 v)⌋

/-- The per-pixel write with the byte conversion claim C6 describes. -/
def writePixelClaim (pixels : List ℤ) (w x y : ℕ) (sums : ℚ × ℚ × ℚ) : List ℤ :=
  ((pixels.set ((y * w + x) * 3) (toByteClaim (channel_value sums.1))).set
      ((y * w + x) * 3 + 1) (toByteClaim (channel_value sums.2.1))).set
    ((y * w + x) * 3 + 2) (toByteClaim (channel_value sums.2.2))

/-- Scatter oracle that always absorbs (every material returns `None`). -/
def scatterAbsorb : ScatterFn := fun _ _ _ => none

/-- A fixed scattered ray, used by `scatterFixed`. -/
def sray : Ray := ⟨⟨0, 0, 0⟩, ⟨0, 1, 0⟩⟩

/-- A fixed attenuation color, used by `scatterFixed`. -/
def alb5 : Srgb := ⟨1/2, 1/2, 1/2⟩

/-- Scatter oracle that always scatters to `sray` with attenuation
`alb5`. -/
def scatterFixed : ScatterFn := fun _ _ _ => some (sray, alb5)

/-- Red diffuse material. -/
def mat1 : Material := Material.Lambertian ⟨1, 0, 0⟩

/-- Green diffuse material. -/
def mat2 : Material := Material.Lambertian ⟨0, 1, 0⟩

/-- Ray from the origin towards negative z. -/
def ray0 : Ray := ⟨⟨0, 0, 0⟩, ⟨0, 0, -1⟩⟩

/-- Ray from the origin towards positive x (the sky-ray test of the
spec). -/
def rayX : Ray := ⟨⟨0, 0, 0⟩, ⟨1, 0, 0⟩⟩

/-- Unit sphere two units in front of the origin, with the given
material. -/
def unitSphere (m : Material) : Sphere := ⟨⟨0, 0, -2⟩, 1, m⟩

/-- Unit sphere two units in front of the origin, red. -/
def s1 : Sphere := unitSphere mat1

/-- Same geometry as `s1` but green. -/
def s2 : Sphere := unitSphere mat2

/-- Hit record of `ray0` against `s1` at `t = 1`. -/
def rec1 : HitRecord := ⟨⟨0, 0, -1⟩, ⟨0, 0, 1⟩, 1, mat1, true⟩

/-- Hit record of `ray0` against `s2` at `t = 1`. -/
def rec2 : HitRecord := ⟨⟨0, 0, -1⟩, ⟨0, 0, 1⟩, 1, mat2, true⟩

/-- Sphere tangent to `ray0` at the huge parameter `t = 2^1030`, beyond
`f64::MAX ≈ 2^1024`. -/
def sFar : Sphere := ⟨⟨0, 1, -(2 ^ 1030)⟩, 1, mat1⟩

/-- Hit record of `ray0` against `sFar` (tangent hit, back-face normal
convention applies since the dot product is zero). -/
def recFar : HitRecord := ⟨⟨0, 0, -(2 ^ 1030)⟩, ⟨0, 1, 0⟩, 2 ^ 1030, mat1, false⟩

/-- A twelve-byte pixel buffer (2×2 image), all zero. -/
def buf12 : List ℤ := List.replicate 12 0


/-- One positive-depth step of the spec-worded `ray_colorInf`, mirroring
`rayColorStep` with the `t_max = +∞` query. -/
def rayColorInfStep (sc : ScatterFn) (r : Ray) (w : List Sphere) (depth : ℤ) : Srgb :=
  match hit_worldB w r (1/1000) none with
  | some hit_record =>
    match sc hit_record.material r hit_record with
    | some (scattered_ray, albedo) =>
      ⟨albedo.red * (ray_colorInf sc scattered_ray w (depth - 1)).red,
        albedo.green * (ray_colorInf sc scattered_ray w (depth - 1)).green,
        albedo.blue * (ray_colorInf sc scattered_ray w (depth - 1)).blue⟩
    | none => ⟨0, 0, 0⟩
  | none => sky_color r

theorem fsqrt_nonneg (q : ℚ) : 0 ≤ fsqrt q := Rat.sqrt_nonneg q
theorem Sphere.a_coeff_nonneg (s : Sphere) (r : Ray) : 0 ≤ s.a_coeff r := by
  have hx := mul_self_nonneg r.direction.x
  have hy := mul_self_nonneg r.direction.y
  have hz := mul_self_nonneg r.direction.z
  unfold Sphere.a_coeff Vec3.dot
  linarith
theorem Sphere.root1_le_root2 (s : Sphere) (r : Ray) : s.root1 r ≤ s.root2 r := by
  have hs := fsqrt_nonneg (s.discrim r)
  rcases eq_or_lt_of_le (s.a_coeff_nonneg r) with ha | ha
  · unfold Sphere.root1 Sphere.root2
    rw [← ha, div_zero, div_zero]
  · unfold Sphere.root1 Sphere.root2
    rw [div_le_div_iff₀ ha ha]
    nlinarith
theorem Sphere.mkRecord_t (s : Sphere) (r : Ray) (t : ℚ) : (s.mkRecord r t).t = t := by
  unfold Sphere.mkRecord
  split <;> rfl
theorem Sphere.hit_some_mem (s : Sphere) (r : Ray) (t_min c : ℚ) (h : HitRecord)
    (hh : s.hit r t_min c = some h) :
    h.t ∈ s.roots r ∧ t_min < h.t ∧ h.t < c := by
  unfold Sphere.hit at hh
  by_cases h1 : s.discrim r < 0
  · rw [if_pos h1] at hh
    exact absurd hh (by simp)
  · rw [if_neg h1] at hh
    by_cases h2 : t_min < s.root1 r ∧ s.root1 r < c
    · rw [if_pos h2] at hh
      obtain rfl := Option.some.inj hh
      refine ⟨?_, ?_, ?_⟩
      · unfold Sphere.roots
        rw [if_neg h1, Sphere.mkRecord_t]
        simp
      · rw [Sphere.mkRecord_t]
        exact h2.1
      · rw [Sphere.mkRecord_t]
        exact h2.2
    · rw [if_neg h2] at hh
      by_cases h3 : t_min < s.root2 r ∧ s.root2 r < c
      · rw [if_pos h3] at hh
        obtain rfl := Option.some.inj hh
        refine ⟨?_, ?_, ?_⟩
        · unfold Sphere.roots
          rw [if_neg h1, Sphere.mkRecord_t]
          simp
        · rw [Sphere.mkRecord_t]
          exact h3.1
        · rw [Sphere.mkRecord_t]
          exact h3.2
      · rw [if_neg h3] at hh
        exact absurd hh (by simp)
theorem Sphere.hit_some_min (s : Sphere) (r : Ray) (t_min c : ℚ) (h : HitRecord)
    (hh : s.hit r t_min c = some h) :
    ∀ u ∈ s.roots r, t_min < u → h.t ≤ u ∨ c ≤ u := by
  intro u hu htu
  unfold Sphere.roots at hu
  rw [if_neg ?hd] at hu
  case hd =>
    intro hlt
    unfold Sphere.hit at hh
    rw [if_pos hlt] at hh
    exact absurd hh (by simp)
  simp only [List.mem_cons, List.not_mem_nil, or_false] at hu
  unfold Sphere.hit at hh
  by_cases h1 : s.discrim r < 0
  · rw [if_pos h1] at hh
    exact absurd hh (by simp)
  · rw [if_neg h1] at hh
    by_cases h2 : t_min < s.root1 r ∧ s.root1 r < c
    · rw [if_pos h2] at hh
      obtain rfl := Option.some.inj hh
      rw [Sphere.mkRecord_t]
      rcases hu with rfl | rfl
      · exact Or.inl (le_refl _)
      · exact Or.inl (s.root1_le_root2 r)
    · rw [if_neg h2] at hh
      by_cases h3 : t_min < s.root2 r ∧ s.root2 r < c
      · rw [if_pos h3] at hh
        obtain rfl := Option.some.inj hh
        rw [Sphere.mkRecord_t]
        rcases hu with rfl | rfl
        · push_neg at h2
          exact Or.inr (h2 htu)
        · exact Or.inl (le_refl _)
      · rw [if_neg h3] at hh
        exact absurd hh (by simp)
theorem Sphere.hit_none (s : Sphere) (r : Ray) (t_min c : ℚ)
    (hh : s.hit r t_min c = none) :
    ∀ u ∈ s.roots r, t_min < u → c ≤ u := by
  intro u hu htu
  unfold Sphere.roots at hu
  unfold Sphere.hit at hh
  by_cases h1 : s.discrim r < 0
  · rw [if_pos h1] at hu
    cases hu
  · rw [if_neg h1] at hu
    rw [if_neg h1] at hh
    simp only [List.mem_cons, List.not_mem_nil, or_false] at hu
    by_cases h2 : t_min < s.root1 r ∧ s.root1 r < c
    · rw [if_pos h2] at hh
      exact absurd hh (by simp)
    · rw [if_neg h2] at hh
      by_cases h3 : t_min < s.root2 r ∧ s.root2 r < c
      · rw [if_pos h3] at hh
        exact absurd hh (by simp)
      · rcases hu with rfl | rfl
        · push_neg at h2
          exact h2 htu
        · push_neg at h3
          exact h3 htu
/-- Invariant of the `hit_world` fold: the closest bound only shrinks, the
final record (if it changed) is a root of some sphere of the list strictly
inside `(t_min, initial bound)` and equals the final bound, and every root
of every sphere of the list that is above `t_min` is at least the final
bound. -/
theorem hit_fold (r : Ray) (t_min : ℚ) (world : List Sphere) :
    ∀ (c : ℚ) (o : Option HitRecord),
    (world.foldl (hit_step r t_min) (c, o)).1 ≤ c ∧
    (world.foldl (hit_step r t_min) (c, o) = (c, o) ∨
      ∃ h, (world.foldl (hit_step r t_min) (c, o)).2 = some h ∧
        (world.foldl (hit_step r t_min) (c, o)).1 = h.t ∧
        t_min < h.t ∧ h.t < c ∧ ∃ s ∈ world, h.t ∈ s.roots r) ∧
    (∀ s ∈ world, ∀ u ∈ s.roots r, t_min < u →
      (world.foldl (hit_step r t_min) (c, o)).1 ≤ u) := by
  induction world with
  | nil =>
    intro c o
    refine ⟨le_refl _, Or.inl rfl, ?_⟩
    intro s hs
    cases hs
  | cons s rest ih =>
    intro c o
    rw [List.foldl_cons]
    rcases hs : Sphere.hit s r t_min c with _ | h0
    · have hstep : hit_step r t_min (c, o) s = (c, o) := by
        unfold hit_step
        rw [hs]
      rw [hstep]
      obtain ⟨ih1, ih2, ih3⟩ := ih c o
      refine ⟨ih1, ?_, ?_⟩
      · rcases ih2 with heq | ⟨h1, e1, e2, e3, e4, s1, hs1, hr1⟩
        · exact Or.inl heq
        · exact Or.inr ⟨h1, e1, e2, e3, e4, s1, List.mem_cons_of_mem _ hs1, hr1⟩
      · intro s2 hs2 u hu htu
        rcases List.mem_cons.mp hs2 with rfl | hmem
        · exact le_trans ih1 (s2.hit_none r t_min c hs u hu htu)
        · exact ih3 s2 hmem u hu htu
    · have hstep : hit_step r t_min (c, o) s = (h0.t, some h0) := by
        unfold hit_step
        rw [hs]
      rw [hstep]
      obtain ⟨hmem0, htmin0, htmax0⟩ := s.hit_some_mem r t_min c h0 hs
      obtain ⟨ih1, ih2, ih3⟩ := ih h0.t (some h0)
      refine ⟨le_trans ih1 (le_of_lt htmax0), ?_, ?_⟩
      · rcases ih2 with heq | ⟨h1, e1, e2, e3, e4, s1, hs1, hr1⟩
        · refine Or.inr ⟨h0, ?_, ?_, htmin0, htmax0, s, List.mem_cons_self .., hmem0⟩
          · rw [heq]
          · rw [heq]
        · exact Or.inr ⟨h1, e1, e2, e3, lt_trans e4 htmax0, s1,
            List.mem_cons_of_mem _ hs1, hr1⟩
      · intro s2 hs2 u hu htu
        rcases List.mem_cons.mp hs2 with rfl | hmem
        · rcases s2.hit_some_min r t_min c h0 hs u hu htu with hle | hle
          · exact le_trans ih1 hle
          · exact le_trans (le_trans ih1 (le_of_lt htmax0)) hle
        · exact ih3 s2 hmem u hu htu
/-- Soundness of `hit_world`: a returned hit lies strictly inside
`(t_min, t_max)`, is an intersection of some sphere of the world, and is
minimal among all intersections above `t_min`. -/
theorem hit_world_sound (world : List Sphere) (r : Ray) (t_min t_max : ℚ)
    (h : HitRecord) (hw : hit_world world r t_min t_max = some h) :
    (t_min < h.t ∧ h.t < t_max) ∧ (∃ s ∈ world, h.t ∈ s.roots r) ∧
    ∀ s ∈ world, ∀ u ∈ s.roots r, t_min < u → h.t ≤ u := by
  obtain ⟨f1, f2, f3⟩ := hit_fold r t_min world t_max none
  unfold hit_world at hw
  rcases f2 with heq | ⟨h1, e1, e2, e3, e4, s1, hs1, hr1⟩
  · rw [heq] at hw
    exact absurd hw (by simp)
  · rw [hw] at e1
    obtain rfl : h = h1 := Option.some.inj e1
    refine ⟨⟨e3, e4⟩, ⟨s1, hs1, hr1⟩, ?_⟩
    intro s2 hs2 u hu htu
    exact e2 ▸ f3 s2 hs2 u hu htu
/-- Completeness of `hit_world`: when it returns no hit, no sphere of the
world has an intersection strictly inside `(t_min, t_max)`. -/
theorem hit_world_none (world : List Sphere) (r : Ray) (t_min t_max : ℚ)
    (hw : hit_world world r t_min t_max = none) :
    ∀ s ∈ world, ∀ u ∈ s.roots r, t_min < u → t_max ≤ u := by
  obtain ⟨f1, f2, f3⟩ := hit_fold r t_min world t_max none
  unfold hit_world at hw
  rcases f2 with heq | ⟨h1, e1, e2, e3, e4, s1, hs1, hr1⟩
  · intro s2 hs2 u hu htu
    have := f3 s2 hs2 u hu htu
    rw [heq] at this
    exact this
  · rw [hw] at e1
    exact absurd e1 (by simp)
theorem ray_color_succ (sc : ScatterFn) (r : Ray) (w : List Sphere) (depth : ℤ)
    (hd : 1 ≤ depth) : ray_color sc r w depth = rayColorStep sc r w depth := by
  obtain ⟨n, hn⟩ : ∃ n : ℕ, depth.toNat = n + 1 := ⟨(depth - 1).toNat, by omega⟩
  have hn1 : (depth - 1).toNat = n := by omega
  unfold rayColorStep ray_color
  rw [hn]
  simp only [hn1]
  rfl
theorem Sphere.hitB_some_bound (s : Sphere) (r : Ray) (t_min m : ℚ) :
    s.hitB r t_min (some m) = s.hit r t_min m := rfl
theorem hit_foldB_some (r : Ray) (t_min : ℚ) (world : List Sphere) :
    ∀ (c : ℚ) (o : Option HitRecord),
    world.foldl (hit_stepB r t_min) (some c, o) =
      (some (world.foldl (hit_step r t_min) (c, o)).1,
        (world.foldl (hit_step r t_min) (c, o)).2) := by
  induction world with
  | nil =>
    intro c o
    rfl
  | cons s rest ih =>
    intro c o
    rw [List.foldl_cons, List.foldl_cons]
    have hB : hit_stepB r t_min (some c, o) s =
        (fun acc : ℚ × Option HitRecord => ((some acc.1 : Option ℚ), acc.2))
          (hit_step r t_min (c, o) s) := by
      unfold hit_stepB hit_step
      rw [Sphere.hitB_some_bound]
      rcases Sphere.hit s r t_min c with _ | h0
      · rfl
      · rfl
    rw [hB]
    exact ih (hit_step r t_min (c, o) s).1 (hit_step r t_min (c, o) s).2
/-- Instantiating the optional-bound closest-hit at a finite bound gives
exactly the source's `hit_world` at that bound. -/
theorem hit_worldB_some (world : List Sphere) (r : Ray) (t_min m : ℚ) :
    hit_worldB world r t_min (some m) = hit_world world r t_min m := by
  unfold hit_worldB hit_world
  rw [hit_foldB_some]

theorem fsqrt_sq (q : ℚ) (h : 0 ≤ q) : fsqrt (q * q) = q := by
  rw [fsqrt, Rat.sqrt_eq, abs_of_nonneg h]

theorem fsqrt_zero : fsqrt 0 = 0 := by
  have := fsqrt_sq 0 le_rfl
  simpa using this

theorem fsqrt_one : fsqrt 1 = 1 := by
  have := fsqrt_sq 1 zero_le_one
  simpa using this

theorem unitSphere_discrim (m : Material) : (unitSphere m).discrim ray0 = 1 := by
  norm_num [Sphere.discrim, Sphere.half_b, Sphere.a_coeff, Sphere.c_coeff,
    Vec3.dot, Vec3.sub, unitSphere, ray0]

theorem unitSphere_half_b (m : Material) : (unitSphere m).half_b ray0 = -2 := by
  norm_num [Sphere.half_b, Vec3.dot, Vec3.sub, unitSphere, ray0]

theorem unitSphere_a_coeff (m : Material) : (unitSphere m).a_coeff ray0 = 1 := by
  norm_num [Sphere.a_coeff, Vec3.dot, ray0]

theorem unitSphere_root1 (m : Material) : (unitSphere m).root1 ray0 = 1 := by
  rw [Sphere.root1, unitSphere_discrim, unitSphere_half_b, unitSphere_a_coeff, fsqrt_one]
  norm_num

theorem unitSphere_root2 (m : Material) : (unitSphere m).root2 ray0 = 3 := by
  rw [Sphere.root2, unitSphere_discrim, unitSphere_half_b, unitSphere_a_coeff, fsqrt_one]
  norm_num

theorem unitSphere_mkRecord (m : Material) :
    (unitSphere m).mkRecord ray0 1 = ⟨⟨0, 0, -1⟩, ⟨0, 0, 1⟩, 1, m, true⟩ := by
  have hout : (unitSphere m).outward ray0 1 = ⟨0, 0, 1⟩ := by
    norm_num [Sphere.outward, Ray.at, Vec3.add, Vec3.smul, Vec3.sub, Vec3.div,
      unitSphere, ray0]
  unfold Sphere.mkRecord
  rw [hout, if_pos (by norm_num [Vec3.dot, ray0])]
  norm_num [Ray.at, Vec3.add, Vec3.smul, unitSphere, ray0]

theorem unitSphere_hit (m : Material) (tmax : ℚ) (h1 : 1 < tmax) :
    (unitSphere m).hit ray0 (1/1000) tmax = some ⟨⟨0, 0, -1⟩, ⟨0, 0, 1⟩, 1, m, true⟩ := by
  unfold Sphere.hit
  rw [unitSphere_discrim, unitSphere_root1, unitSphere_root2,
    if_neg (by norm_num : ¬ (1 : ℚ) < 0),
    if_pos (⟨by norm_num, h1⟩ : (1 : ℚ)/1000 < 1 ∧ 1 < tmax),
    unitSphere_mkRecord]

theorem unitSphere_hit_none (m : Material) (tmax : ℚ) (h1 : tmax ≤ 1) :
    (unitSphere m).hit ray0 (1/1000) tmax = none := by
  unfold Sphere.hit
  rw [unitSphere_discrim, unitSphere_root1, unitSphere_root2,
    if_neg (by norm_num : ¬ (1 : ℚ) < 0),
    if_neg (show ¬ ((1 : ℚ)/1000 < 1 ∧ 1 < tmax) from fun hc => absurd hc.2 (by linarith)),
    if_neg (show ¬ ((1 : ℚ)/1000 < 3 ∧ 3 < tmax) from fun hc => absurd hc.2 (by linarith))]

theorem one_lt_f64_MAX : (1 : ℚ) < f64_MAX := by
  norm_num [f64_MAX]

theorem hit_world_pair : hit_world [s1, s2] ray0 (1/1000) 100 = some rec1 := by
  unfold hit_world
  rw [List.foldl_cons, List.foldl_cons, List.foldl_nil]
  have e1 : hit_step ray0 (1/1000) (100, none) s1 = (1, some rec1) := by
    unfold hit_step s1 rec1
    rw [unitSphere_hit mat1 100 (by norm_num)]
  rw [e1]
  have e2 : hit_step ray0 (1/1000) (1, some rec1) s2 = (1, some rec1) := by
    unfold hit_step s2
    rw [unitSphere_hit_none mat2 1 le_rfl]
  rw [e2]

theorem hit_world_pair_swap : hit_world [s2, s1] ray0 (1/1000) 100 = some rec2 := by
  unfold hit_world
  rw [List.foldl_cons, List.foldl_cons, List.foldl_nil]
  have e1 : hit_step ray0 (1/1000) (100, none) s2 = (1, some rec2) := by
    unfold hit_step s2 rec2
    rw [unitSphere_hit mat2 100 (by norm_num)]
  rw [e1]
  have e2 : hit_step ray0 (1/1000) (1, some rec2) s1 = (1, some rec2) := by
    unfold hit_step s1
    rw [unitSphere_hit_none mat1 1 le_rfl]
  rw [e2]

theorem hit_world_single : hit_world [s1] ray0 (1/1000) 100 = some rec1 := by
  unfold hit_world
  rw [List.foldl_cons, List.foldl_nil]
  have e1 : hit_step ray0 (1/1000) (100, none) s1 = (1, some rec1) := by
    unfold hit_step s1 rec1
    rw [unitSphere_hit mat1 100 (by norm_num)]
  rw [e1]

theorem hit_world_single_MAX : hit_world [s1] ray0 (1/1000) f64_MAX = some rec1 := by
  unfold hit_world
  rw [List.foldl_cons, List.foldl_nil]
  have e1 : hit_step ray0 (1/1000) (f64_MAX, none) s1 = (1, some rec1) := by
    unfold hit_step s1 rec1
    rw [unitSphere_hit mat1 f64_MAX one_lt_f64_MAX]
  rw [e1]

theorem sFar_discrim : sFar.discrim ray0 = 0 := by
  norm_num [Sphere.discrim, Sphere.half_b, Sphere.a_coeff, Sphere.c_coeff,
    Vec3.dot, Vec3.sub, sFar, mat1, ray0]

theorem sFar_half_b : sFar.half_b ray0 = -(2 ^ 1030) := by
  norm_num [Sphere.half_b, Vec3.dot, Vec3.sub, sFar, mat1, ray0]

theorem sFar_a_coeff : sFar.a_coeff ray0 = 1 := by
  norm_num [Sphere.a_coeff, Vec3.dot, ray0]

theorem sFar_root1 : sFar.root1 ray0 = 2 ^ 1030 := by
  rw [Sphere.root1, sFar_discrim, sFar_half_b, sFar_a_coeff, fsqrt_zero]
  norm_num

theorem sFar_root2 : sFar.root2 ray0 = 2 ^ 1030 := by
  rw [Sphere.root2, sFar_discrim, sFar_half_b, sFar_a_coeff, fsqrt_zero]
  norm_num

theorem pow1030_not_lt_f64_MAX : ¬ ((2 : ℚ) ^ 1030 < f64_MAX) := by
  rw [f64_MAX, not_lt]
  calc ((2 : ℚ) ^ 53 - 1) * 2 ^ 971 ≤ 2 ^ 53 * 2 ^ 971 := by
        have h2 : (0 : ℚ) < 2 ^ 971 := by positivity
        nlinarith
    _ = 2 ^ 1024 := by rw [← pow_add]
    _ ≤ 2 ^ 1030 := by
        apply pow_le_pow_right₀ (by norm_num)
        norm_num

theorem sFar_hit_MAX : Sphere.hit sFar ray0 (1/1000) f64_MAX = none := by
  unfold Sphere.hit
  rw [sFar_discrim, sFar_root1, sFar_root2,
    if_neg (by norm_num : ¬ (0 : ℚ) < 0),
    if_neg (show ¬ ((1 : ℚ)/1000 < 2 ^ 1030 ∧ (2 : ℚ) ^ 1030 < f64_MAX) from
      fun hc => absurd hc.2 pow1030_not_lt_f64_MAX),
    if_neg (show ¬ ((1 : ℚ)/1000 < 2 ^ 1030 ∧ (2 : ℚ) ^ 1030 < f64_MAX) from
      fun hc => absurd hc.2 pow1030_not_lt_f64_MAX)]

theorem sFar_mkRecord : sFar.mkRecord ray0 (2 ^ 1030) = recFar := by
  have hout : sFar.outward ray0 (2 ^ 1030) = ⟨0, -1, 0⟩ := by
    norm_num [Sphere.outward, Ray.at, Vec3.add, Vec3.smul, Vec3.sub, Vec3.div,
      sFar, mat1, ray0]
  unfold Sphere.mkRecord
  rw [hout, if_neg (by norm_num [Vec3.dot, ray0])]
  norm_num [Ray.at, Vec3.add, Vec3.smul, Vec3.neg, sFar, mat1, ray0, recFar]

theorem sFar_hitB : Sphere.hitB sFar ray0 (1/1000) none = some recFar := by
  unfold Sphere.hitB
  rw [sFar_discrim, sFar_root1,
    if_neg (by norm_num : ¬ (0 : ℚ) < 0),
    if_pos (⟨by norm_num, trivial⟩ : (1 : ℚ)/1000 < 2 ^ 1030 ∧ ltB ((2 : ℚ) ^ 1030) none),
    sFar_mkRecord]

theorem hit_world_far : hit_world [sFar] ray0 (1/1000) f64_MAX = none := by
  unfold hit_world
  rw [List.foldl_cons, List.foldl_nil]
  have e1 : hit_step ray0 (1/1000) (f64_MAX, none) sFar = (f64_MAX, none) := by
    unfold hit_step
    rw [sFar_hit_MAX]
  rw [e1]

theorem hit_worldB_far : hit_worldB [sFar] ray0 (1/1000) none = some recFar := by
  unfold hit_worldB
  rw [List.foldl_cons, List.foldl_nil]
  have e1 : hit_stepB ray0 (1/1000) (none, none) sFar = (some (2 ^ 1030), some recFar) := by
    unfold hit_stepB
    rw [sFar_hitB]
    norm_num [recFar]
  rw [e1]

theorem ray_colorInf_succ (sc : ScatterFn) (r : Ray) (w : List Sphere) (depth : ℤ)
    (hd : 1 ≤ depth) : ray_colorInf sc r w depth = rayColorInfStep sc r w depth := by
  obtain ⟨n, hn⟩ : ∃ n : ℕ, depth.toNat = n + 1 := ⟨(depth - 1).toNat, by omega⟩
  have hn1 : (depth - 1).toNat = n := by omega
  unfold rayColorInfStep ray_colorInf
  rw [hn]
  simp only [hn1]
  rfl

theorem rayColorStep_eval (sc : ScatterFn) (r : Ray) (w : List Sphere) (d : ℤ)
    (h : HitRecord) (hw : hit_world w r (1/1000) f64_MAX = some h) :
    rayColorStep sc r w d =
      match sc h.material r h with
      | some (scattered_ray, albedo) =>
        ⟨albedo.red * (ray_color sc scattered_ray w (d - 1)).red,
          albedo.green * (ray_color sc scattered_ray w (d - 1)).green,
          albedo.blue * (ray_color sc scattered_ray w (d - 1)).blue⟩
      | none => ⟨0, 0, 0⟩ := by
  unfold rayColorStep
  rw [hw]

theorem sky_color_eval (r : Ray) (hls : r.direction.length_squared = 1)
    (hy : r.direction.y = 0) : sky_color r = ⟨3/4, 17/20, 1⟩ := by
  simp only [sky_color, Vec3.unit_vector, Vec3.div, Vec3.length, hls, fsqrt_one, hy]
  norm_num

theorem hit_world_isSome_of_perm (w1 w2 : List Sphere) (r : Ray) (t_min t_max : ℚ)
    (hp : w1.Perm w2) (hs : (hit_world w1 r t_min t_max).isSome) :
    (hit_world w2 r t_min t_max).isSome := by
  obtain ⟨h1, hh1⟩ := Option.isSome_iff_exists.mp hs
  rcases ho : hit_world w2 r t_min t_max with _ | h2
  · obtain ⟨hb, ⟨s, hsmem, hroot⟩, _⟩ := hit_world_sound w1 r t_min t_max h1 hh1
    have hge := hit_world_none w2 r t_min t_max ho s (hp.mem_iff.mp hsmem) h1.t hroot hb.1
    exact absurd hb.2 (not_lt.mpr hge)
  · simp

theorem sss_len (l : List ℤ) (i : ℕ) (a b c : ℤ) :
    ((((l.set i a).set (i + 1) b).set (i + 2) c)).length = l.length := by
  simp [List.length_set]

theorem sss_get1 (l : List ℤ) (i : ℕ) (a b c : ℤ) (h : i + 2 < l.length) :
    ((((l.set i a).set (i + 1) b).set (i + 2) c))[i]? = some a := by
  rw [List.getElem?_set_ne (by omega), List.getElem?_set_ne (by omega),
    List.getElem?_set_eq_of_lt _ (by omega)]

theorem sss_get2 (l : List ℤ) (i : ℕ) (a b c : ℤ) (h : i + 2 < l.length) :
    ((((l.set i a).set (i + 1) b).set (i + 2) c))[i + 1]? = some b := by
  rw [List.getElem?_set_ne (by omega),
    List.getElem?_set_eq_of_lt _ (by rw [List.length_set]; omega)]

theorem sss_get3 (l : List ℤ) (i : ℕ) (a b c : ℤ) (h : i + 2 < l.length) :
    ((((l.set i a).set (i + 1) b).set (i + 2) c))[i + 2]? = some c := by
  rw [List.getElem?_set_eq_of_lt _ (by rw [List.length_set, List.length_set]; omega)]

theorem sss_frame (l : List ℤ) (i : ℕ) (a b c : ℤ) (j : ℕ) (h1 : j ≠ i)
    (h2 : j ≠ i + 1) (h3 : j ≠ i + 2) :
    ((((l.set i a).set (i + 1) b).set (i + 2) c))[j]? = l[j]? := by
  rw [List.getElem?_set_ne (by omega), List.getElem?_set_ne (by omega),
    List.getElem?_set_ne (by omega)]

theorem channel_value_red : channel_value (3/125000) = 1/500 := by
  unfold channel_value samples_per_pixel
  rw [show (1 / ((6 : ℕ) : ℚ)) * (3/125000) = (1/500) * (1/500) from by norm_num]
  exact fsqrt_sq _ (by norm_num)

theorem channel_value_zero : channel_value 0 = 0 := by
  unfold channel_value
  rw [mul_zero, fsqrt_zero]

theorem channel_value_blue : channel_value (3/2) = 1/2 := by
  unfold channel_value samples_per_pixel
  rw [show (1 / ((6 : ℕ) : ℚ)) * (3/2) = (1/2) * (1/2) from by norm_num]
  exact fsqrt_sq _ (by norm_num)

theorem toByte_eval1 : toByte (channel_value (3/125000)) = 1 := by
  rw [channel_value_red]
  unfold toByte
  rw [max_eq_right (by norm_num), min_eq_right (by norm_num)]
  norm_num [round_eq]

theorem toByte_eval0 : toByte (channel_value 0) = 0 := by
  rw [channel_value_zero]
  unfold toByte
  rw [max_self, min_eq_right (by norm_num)]
  norm_num

theorem toByte_eval128 : toByte (channel_value (3/2)) = 128 := by
  rw [channel_value_blue]
  unfold toByte
  rw [max_eq_right (by norm_num), min_eq_right (by norm_num)]
  norm_num [round_eq]

theorem toByteClaim_eval : toByteClaim (channel_value (3/125000)) = 0 := by
  rw [channel_value_red]
  unfold toByteClaim
  rw [max_eq_right (by norm_num), min_eq_right (by norm_num)]
  norm_num [Int.floor_eq_zero_iff]

/-- C1: for every scatter oracle, ray, world and depth ≥ 1, when the
closest-hit query (with the source's bounds 0.001 and f64::MAX) returns a
hit, `ray_color` returns the componentwise product of the scatter albedo
with `ray_color` of the scattered ray at depth − 1 when scatter returns
some pair, and black (0,0,0) when scatter returns none. -/
theorem claim_C1 (sc : ScatterFn) (r : Ray) (w : List Sphere) (d : ℤ) (h : HitRecord)
    (hd : 1 ≤ d) (hw : hit_world w r (1/1000) f64_MAX = some h) :
    (∀ sr alb, sc h.material r h = some (sr, alb) →
      ray_color sc r w d =
        ⟨alb.red * (ray_color sc sr w (d - 1)).red,
          alb.green * (ray_color sc sr w (d - 1)).green,
          alb.blue * (ray_color sc sr w (d - 1)).blue⟩) ∧
    (sc h.material r h = none → ray_color sc r w d = ⟨0, 0, 0⟩) := by
  constructor
  · intro sr alb hsc
    rw [ray_color_succ sc r w d hd, rayColorStep_eval sc r w d h hw, hsc]
  · intro hsc
    rw [ray_color_succ sc r w d hd, rayColorStep_eval sc r w d h hw, hsc]

theorem claim_C1_witness :
    (1 : ℤ) ≤ 1 ∧ hit_world [s1] ray0 (1/1000) f64_MAX = some rec1 ∧
      scatterFixed rec1.material ray0 rec1 = some (sray, alb5) ∧
      ray_color scatterFixed ray0 [s1] 1 =
        ⟨alb5.red * (ray_color scatterFixed sray [s1] (1 - 1)).red,
          alb5.green * (ray_color scatterFixed sray [s1] (1 - 1)).green,
          alb5.blue * (ray_color scatterFixed sray [s1] (1 - 1)).blue⟩ :=
  ⟨le_refl 1, hit_world_single_MAX, rfl,
    (claim_C1 scatterFixed ray0 [s1] 1 rec1 (le_refl 1) hit_world_single_MAX).1
      sray alb5 rfl⟩

/-- C2: for every scatter oracle, ray with nonzero direction and depth ≥ 1,
`ray_color` on the empty world returns the sky gradient
`(1−t)·(1,1,1) + t·(0.5,0.7,1.0)` at `t = 0.5·(unit(direction).y + 1)`;
the witness checks the concrete sky-ray scenario
`ray (0,0,0) → (1,0,0)`, depth 2, color (0.75, 0.85, 1.0). -/
theorem claim_C2 (sc : ScatterFn) (r : Ray) (d : ℤ)
    (_hdir : r.direction ≠ ⟨0, 0, 0⟩) (hd : 1 ≤ d) :
    ray_color sc r [] d =
      ⟨(1 - (1/2) * (r.direction.unit_vector.y + 1)) * 1
          + (1/2) * (r.direction.unit_vector.y + 1) * (1/2),
        (1 - (1/2) * (r.direction.unit_vector.y + 1)) * 1
          + (1/2) * (r.direction.unit_vector.y + 1) * (7/10),
        (1 - (1/2) * (r.direction.unit_vector.y + 1)) * 1
          + (1/2) * (r.direction.unit_vector.y + 1) * 1⟩ := by
  rw [ray_color_succ sc r [] d hd]
  unfold rayColorStep
  rfl

theorem claim_C2_witness :
    rayX.direction ≠ ⟨0, 0, 0⟩ ∧ (1 : ℤ) ≤ 2 ∧
      ray_color scatterAbsorb rayX [] 2 = ⟨3/4, 17/20, 1⟩ := by
  have hdir : rayX.direction ≠ (⟨0, 0, 0⟩ : Vec3) := by
    intro hEq
    have hx := congrArg Vec3.x hEq
    norm_num [rayX] at hx
  refine ⟨hdir, by norm_num, ?_⟩
  exact (claim_C2 scatterAbsorb rayX 2 hdir (by norm_num)).trans
    (sky_color_eval rayX (by norm_num [Vec3.length_squared, Vec3.dot, rayX])
      (by norm_num [rayX]))

/-- C3: whenever `hit_world` returns a hit, the hit parameter lies strictly
inside `(t_min, t_max)`, is an intersection of one of the spheres, and is
minimal among all sphere intersections inside `(t_min, t_max)` — under the
§4.2 intersection contract, proved here for its model `Sphere.hit` with
root list `Sphere.roots`. -/
theorem claim_C3 (world : List Sphere) (r : Ray) (t_min t_max : ℚ) (h : HitRecord)
    (hw : hit_world world r t_min t_max = some h) :
    (t_min < h.t ∧ h.t < t_max) ∧ (∃ s ∈ world, h.t ∈ s.roots r) ∧
    ∀ s ∈ world, ∀ u ∈ s.roots r, t_min < u → u < t_max → h.t ≤ u := by
  obtain ⟨hb, hmem, hmin⟩ := hit_world_sound world r t_min t_max h hw
  exact ⟨hb, hmem, fun s hs u hu hlow _ => hmin s hs u hu hlow⟩

theorem claim_C3_witness :
    hit_world [s1] ray0 (1/1000) 100 = some rec1 ∧
      ((1 : ℚ)/1000 < rec1.t ∧ rec1.t < 100) :=
  ⟨hit_world_single, (claim_C3 [s1] ray0 (1/1000) 100 rec1 hit_world_single).1⟩

/-- C4 (amended): `ray_color` queries the world closest-hit with
`t_min = 0.001` and the finite bound `t_max = f64::MAX = (2^53−1)·2^971`,
not `+∞`: each positive-depth step is exactly `rayColorStep` (whose query
uses those constants), and the finite-bound query is the `some f64_MAX`
instance of the optional-bound closest-hit whose `none` instance is the
spec's `+∞` query. -/
theorem claim_C4 :
    (∀ (w : List Sphere) (r : Ray) (t_min m : ℚ),
      hit_worldB w r t_min (some m) = hit_world w r t_min m) ∧
    ∀ (sc : ScatterFn) (r : Ray) (w : List Sphere) (d : ℤ),
      1 ≤ d → ray_color sc r w d = rayColorStep sc r w d :=
  ⟨hit_worldB_some, ray_color_succ⟩

/-- Counterexample to C4 as stated: a sphere tangent to the ray at
`t = 2^1030 > f64::MAX` is missed by the code (sky gradient) but hit by
the spec's `t_max = +∞` query (black, the oracle absorbing). -/
theorem claim_C4_counterexample :
    (1 : ℤ) ≤ 1 ∧
      ray_color scatterAbsorb ray0 [sFar] 1 ≠ ray_colorInf scatterAbsorb ray0 [sFar] 1 := by
  refine ⟨le_refl 1, ?_⟩
  have e1 : ray_color scatterAbsorb ray0 [sFar] 1 = ⟨3/4, 17/20, 1⟩ := by
    rw [ray_color_succ scatterAbsorb ray0 [sFar] 1 (le_refl 1)]
    unfold rayColorStep
    rw [hit_world_far]
    exact sky_color_eval ray0 (by norm_num [Vec3.length_squared, Vec3.dot, ray0])
      (by norm_num [ray0])
  have e2 : ray_colorInf scatterAbsorb ray0 [sFar] 1 = ⟨0, 0, 0⟩ := by
    rw [ray_colorInf_succ scatterAbsorb ray0 [sFar] 1 (le_refl 1)]
    unfold rayColorInfStep
    rw [hit_worldB_far]
    rfl
  rw [e1, e2]
  intro hEq
  have hred := congrArg Srgb.red hEq
  norm_num at hred

theorem claim_C4_witness :
    hit_worldB [s1] ray0 (1/1000) (some 100) = hit_world [s1] ray0 (1/1000) 100 ∧
      (1 : ℤ) ≤ 1 ∧
      ray_color scatterAbsorb ray0 [s1] 1 = rayColorStep scatterAbsorb ray0 [s1] 1 :=
  ⟨claim_C4.1 [s1] ray0 (1/1000) 100, le_refl 1,
    claim_C4.2 scatterAbsorb ray0 [s1] 1 (le_refl 1)⟩

/-- C5: for every scatter oracle, ray and world, `ray_color` at depth ≤ 0
returns black; the world is universally quantified, so the result does not
depend on any world query. -/
theorem claim_C5 (sc : ScatterFn) (r : Ray) (w : List Sphere) (d : ℤ) (hd : d ≤ 0) :
    ray_color sc r w d = ⟨0, 0, 0⟩ := by
  unfold ray_color
  rw [Int.toNat_of_nonpos hd]
  rfl

theorem claim_C5_witness :
    (0 : ℤ) ≤ 0 ∧ hit_world [s1] ray0 (1/1000) 100 = some rec1 ∧
      ray_color scatterFixed ray0 [s1] 0 = ⟨0, 0, 0⟩ :=
  ⟨le_refl 0, hit_world_single, claim_C5 scatterFixed ray0 [s1] 0 (le_refl 0)⟩

/-- C6 (amended): the per-pixel post-processing divides each channel sum
by `samples_per_pixel`, gamma-2 corrects with a square root, converts each
channel with the palette crate's `into_format` (saturate to [0,1], scale
by 255, round to nearest — not clamp-to-[0,1), ×256, truncate), and writes
the three bytes in R,G,B order at offsets `3·(y·width+x)`, `+1`, `+2`,
leaving every other byte unchanged. -/
theorem claim_C6 (buf : List ℤ) (w x y : ℕ) (sums : ℚ × ℚ × ℚ)
    (hlen : 3 * (y * w + x) + 2 < buf.length) :
    (writePixel buf w x y sums).length = buf.length ∧
    (writePixel buf w x y sums)[3 * (y * w + x)]? = some (toByte (channel_value sums.1)) ∧
    (writePixel buf w x y sums)[3 * (y * w + x) + 1]? =
      some (toByte (channel_value sums.2.1)) ∧
    (writePixel buf w x y sums)[3 * (y * w + x) + 2]? =
      some (toByte (channel_value sums.2.2)) ∧
    ∀ j, j ≠ 3 * (y * w + x) → j ≠ 3 * (y * w + x) + 1 → j ≠ 3 * (y * w + x) + 2 →
      (writePixel buf w x y sums)[j]? = buf[j]? := by
  have hmc : 3 * (y * w + x) = (y * w + x) * 3 := Nat.mul_comm _ _
  rw [hmc] at hlen ⊢
  unfold writePixel
  refine ⟨sss_len _ _ _ _ _, sss_get1 _ _ _ _ _ hlen, sss_get2 _ _ _ _ _ hlen,
    sss_get3 _ _ _ _ _ hlen, fun j h1 h2 h3 => sss_frame _ _ _ _ _ j h1 h2 h3⟩

/-- Counterexample to C6 as stated: at a red channel sum of `3/125000` the
gamma-corrected channel is `1/500`; palette's conversion (used by the
code) rounds `255/500 = 0.51` to byte 1, while the claimed clamp-×256-
truncate pipeline gives `⌊0.512⌋ = 0`. -/
theorem claim_C6_counterexample :
    writePixel buf12 1 0 0 (3/125000, 0, 0) ≠ writePixelClaim buf12 1 0 0 (3/125000, 0, 0) := by
  intro hEq
  have h0 := congrArg (fun l : List ℤ => l[(0 * 1 + 0) * 3]?) hEq
  simp only at h0
  have e1 : (writePixel buf12 1 0 0 (3/125000, 0, 0))[(0 * 1 + 0) * 3]? = some 1 := by
    unfold writePixel
    rw [sss_get1 _ _ _ _ _ (by norm_num [buf12])]
    exact congrArg some toByte_eval1
  have e2 : (writePixelClaim buf12 1 0 0 (3/125000, 0, 0))[(0 * 1 + 0) * 3]? = some 0 := by
    unfold writePixelClaim
    rw [sss_get1 _ _ _ _ _ (by norm_num [buf12])]
    exact congrArg some toByteClaim_eval
  rw [e1, e2] at h0
  exact absurd (Option.some.inj h0) (by norm_num)

theorem claim_C6_witness :
    3 * (1 * 2 + 1) + 2 < buf12.length ∧
    (writePixel buf12 2 1 1 (3/125000, 0, 3/2)).length = buf12.length ∧
    (writePixel buf12 2 1 1 (3/125000, 0, 3/2))[3 * (1 * 2 + 1)]? = some 1 ∧
    (writePixel buf12 2 1 1 (3/125000, 0, 3/2))[3 * (1 * 2 + 1) + 1]? = some 0 ∧
    (writePixel buf12 2 1 1 (3/125000, 0, 3/2))[3 * (1 * 2 + 1) + 2]? = some 128 := by
  have hlen : 3 * (1 * 2 + 1) + 2 < buf12.length := by norm_num [buf12]
  have H := claim_C6 buf12 2 1 1 (3/125000, 0, 3/2) hlen
  refine ⟨hlen, H.1, ?_, ?_, ?_⟩
  · rw [H.2.1]
    exact congrArg some toByte_eval1
  · rw [H.2.2.1]
    exact congrArg some toByte_eval0
  · rw [H.2.2.2.1]
    exact congrArg some toByte_eval128

/-- C7 (amended): permuting the sphere list never changes whether
`hit_world` finds a hit, nor the hit parameter `t`; the full records can
differ when two distinct spheres attain the same minimal `t` (the earlier
sphere in iteration order wins), as the counterexample shows. -/
theorem claim_C7 (w1 w2 : List Sphere) (r : Ray) (t_min t_max : ℚ) (hp : w1.Perm w2) :
    ((hit_world w1 r t_min t_max).isSome ↔ (hit_world w2 r t_min t_max).isSome) ∧
    ∀ h1 h2, hit_world w1 r t_min t_max = some h1 →
      hit_world w2 r t_min t_max = some h2 → h1.t = h2.t := by
  constructor
  · exact ⟨hit_world_isSome_of_perm w1 w2 r t_min t_max hp,
      hit_world_isSome_of_perm w2 w1 r t_min t_max hp.symm⟩
  · intro h1 h2 hh1 hh2
    obtain ⟨b1, ⟨sa, hsa, hra⟩, min1⟩ := hit_world_sound w1 r t_min t_max h1 hh1
    obtain ⟨b2, ⟨sb, hsb, hrb⟩, min2⟩ := hit_world_sound w2 r t_min t_max h2 hh2
    exact le_antisymm (min1 sb (hp.mem_iff.mpr hsb) h2.t hrb b2.1)
      (min2 sa (hp.mem_iff.mp hsa) h1.t hra b1.1)

/-- Counterexample to C7 as stated: two coincident spheres with different
materials are both hit at `t = 1`; swapping them changes which material the
returned record carries, so the hits do not agree. -/
theorem claim_C7_counterexample :
    ([s1, s2].Perm [s2, s1]) ∧
      hit_world [s1, s2] ray0 (1/1000) 100 ≠ hit_world [s2, s1] ray0 (1/1000) 100 := by
  refine ⟨List.Perm.swap s2 s1 [], ?_⟩
  rw [hit_world_pair, hit_world_pair_swap]
  intro hEq
  have h1 := Option.some.inj hEq
  simp [rec1, rec2, mat1, mat2] at h1

theorem claim_C7_witness :
    ([s1, s2].Perm [s2, s1]) ∧
    ((hit_world [s1, s2] ray0 (1/1000) 100).isSome ↔
      (hit_world [s2, s1] ray0 (1/1000) 100).isSome) ∧
    rec1.t = rec2.t :=
  ⟨List.Perm.swap s2 s1 [],
    (claim_C7 [s1, s2] [s2, s1] ray0 (1/1000) 100 (List.Perm.swap s2 s1 [])).1,
    (claim_C7 [s1, s2] [s2, s1] ray0 (1/1000) 100 (List.Perm.swap s2 s1 [])).2
      rec1 rec2 hit_world_pair hit_world_pair_swap⟩

/-- C8: the expression `(800 / 600) as f64 * 2.5` of main.rs line 94
evaluates exactly to 5/2 because `800 / 600` integer-divides to 1; the
camera's horizontal span is therefore `(5/2, 0, 0)` for every value of the
`bounds` argument. -/
theorem claim_C8 :
    viewport_width_expr = 5 / 2 ∧ (800 : ℤ) / 600 = 1 ∧
    ∀ bounds : ℕ × ℕ, (render_camera bounds).horizontal = ⟨5 / 2, 0, 0⟩ := by
  have hdiv : (800 : ℤ) / 600 = 1 := by decide
  have hvw : viewport_width_expr = 5 / 2 := by
    unfold viewport_width_expr
    rw [hdiv]
    norm_num
  refine ⟨hvw, hdiv, ?_⟩
  intro bounds
  simp only [render_camera, Camera.new]
  rw [hvw]

/-- C10: in the sampling loop of `render`, the top row `y = 0` produces
`v = (600 − r)/599 > 1` for every draw `r ∈ [0, 1)`, and the last column
`x = 799` produces `u = (799 + r)/799 > 1` for every draw `r > 0` — both
strictly outside the `[0, 1]` domain the spec states for `get_ray`. -/
theorem claim_C10 (r : ℚ) (_h0 : 0 ≤ r) (h1 : r < 1) :
    1 < v_sample 600 0 r ∧ (0 < r → 1 < u_sample 800 799 r) := by
  constructor
  · unfold v_sample
    push_cast
    rw [one_lt_div (by norm_num)]
    linarith
  · intro hr
    unfold u_sample
    push_cast
    rw [one_lt_div (by norm_num)]
    linarith

theorem claim_C10_witness :
    (0 ≤ (1 : ℚ)/2 ∧ (1 : ℚ)/2 < 1) ∧
      1 < v_sample 600 0 (1/2) ∧ 1 < u_sample 800 799 (1/2) :=
  ⟨⟨by norm_num, by norm_num⟩,
    (claim_C10 (1/2) (by norm_num) (by norm_num)).1,
    (claim_C10 (1/2) (by norm_num) (by norm_num)).2 (by norm_num)⟩
